import Mathlib

set_option maxRecDepth 40000

/-!
A shallow embedding of the core of the install-scripts service
(src/api/app.py and src/api/rate_limiter.py): the output sanitizer, the
file-backed task store with its submit/poll orchestration, the remote
command construction, the MD5-based task fingerprint, and the rate
limiter.  Definitions mirror the Python source; the theorems settle the
specification's claims about them.
-/

/-! ### Sanitizer: `strip_ansi_codes` (src/api/app.py, lines 101-141)

The Python function substitutes the empty string for every match of

  `\x1b(?:\[[0-9;]*[A-Za-z]|\][^\x07]*\x07|\][^\x1b]*\x1b\\|[PX^_][^\x1b]*\x1b\\|[NOc])`

scanning left to right.  The model below reproduces `re.sub`: at each
position the pattern is tried (every alternative begins with ESC); a match
is dropped and scanning resumes after it, otherwise the character is kept.
Each alternative is deterministic: the starred classes are disjoint from
their terminators, so greedy matching with backtracking degenerates to
"maximal run, then check the terminator". -/

def escChar : Char := Char.ofNat 27

def belChar : Char := Char.ofNat 7

def backslashChar : Char := Char.ofNat 92

/-- The class `[0-9;]` of CSI parameter characters. -/
def isCsiParamChar (c : Char) : Bool := c.isDigit || c = ';'

/-- `[^\x07]*\x07`: consume up to and including the first BEL;
`none` when the input has no BEL. -/
def splitAfterBel : List Char → Option (List Char)
  | [] => none
  | c :: rest => if c = belChar then some rest else splitAfterBel rest

/-- `[^\x1b]*\x1b\\`: consume up to the first ESC, which must be followed
by a backslash; the star cannot extend past an ESC nor stop before a
non-ESC character, so the first ESC decides the match. -/
def splitAfterSt : List Char → Option (List Char)
  | [] => none
  | c :: rest =>
    if c = escChar then
      match rest with
      | d :: rest2 => if d = backslashChar then some rest2 else none
      | [] => none
    else splitAfterSt rest

/-- Greedy `[0-9;]*`: the input after the maximal run of parameter characters. -/
def skipCsiParams : List Char → List Char
  | [] => []
  | c :: rest => if isCsiParamChar c then skipCsiParams rest else c :: rest

/-- `\[[0-9;]*[A-Za-z]`, applied after the `[`: parameters, then one ASCII
letter. -/
def matchCsiTail (l : List Char) : Option (List Char) :=
  match skipCsiParams l with
  | [] => none
  | c :: rest => if c.isAlpha then some rest else none

/-- The pattern's alternatives in the regex's order, applied to the
characters after an ESC; returns the input after the match. -/
def matchEscTail : List Char → Option (List Char)
  | [] => none
  | c :: rest =>
    if c = '[' then matchCsiTail rest
    else if c = ']' then
      match splitAfterBel rest with
      | some r => some r
      | none => splitAfterSt rest
    else if c = 'P' || c = 'X' || c = '^' || c = '_' then splitAfterSt rest
    else if c = 'N' || c = 'O' || c = 'c' then some rest
    else none

theorem splitAfterBel_length {l r : List Char} (h : splitAfterBel l = some r) :
    r.length ≤ l.length := by
  induction l with
  | nil => simp [splitAfterBel] at h
  | cons c rest ih =>
    by_cases hc : c = belChar
    · simp [splitAfterBel, hc] at h
      subst h
      exact Nat.le_succ _
    · simp [splitAfterBel, hc] at h
      exact Nat.le_trans (ih h) (Nat.le_succ _)

theorem splitAfterSt_length {l r : List Char} (h : splitAfterSt l = some r) :
    r.length ≤ l.length := by
  induction l with
  | nil => simp [splitAfterSt] at h
  | cons c rest ih =>
    by_cases hc : c = escChar
    · simp only [splitAfterSt, hc, if_true] at h
      match rest, h with
      | d :: rest2, h =>
        by_cases hd : d = backslashChar
        · simp [hd] at h
          subst h
          exact Nat.le_trans (Nat.le_succ _) (Nat.le_succ _)
        · simp [hd] at h
    · simp [splitAfterSt, hc] at h
      exact Nat.le_trans (ih h) (Nat.le_succ _)

theorem skipCsiParams_length (l : List Char) :
    (skipCsiParams l).length ≤ l.length := by
  induction l with
  | nil => simp [skipCsiParams]
  | cons c rest ih =>
    by_cases hc : isCsiParamChar c
    · simp [skipCsiParams, hc]
      exact Nat.le_trans ih (Nat.le_succ _)
    · simp [skipCsiParams, hc]

theorem matchCsiTail_length {l r : List Char} (h : matchCsiTail l = some r) :
    r.length ≤ l.length := by
  unfold matchCsiTail at h
  match hs : skipCsiParams l with
  | [] => rw [hs] at h; simp at h
  | c :: rest =>
    rw [hs] at h
    by_cases hl : c.isAlpha
    · simp [hl] at h
      subst h
      have := skipCsiParams_length l
      rw [hs] at this
      exact Nat.le_trans (Nat.le_succ _) this
    · simp [hl] at h

theorem matchEscTail_length {l r : List Char} (h : matchEscTail l = some r) :
    r.length ≤ l.length := by
  match l, h with
  | c :: rest, h =>
    simp only [matchEscTail] at h
    split at h
    · exact Nat.le_trans (matchCsiTail_length h) (Nat.le_succ _)
    · split at h
      · match hb : splitAfterBel rest, h with
        | some r2, h =>
          simp at h
          subst h
          exact Nat.le_trans (splitAfterBel_length hb) (Nat.le_succ _)
        | none, h =>
          simp at h
          exact Nat.le_trans (splitAfterSt_length h) (Nat.le_succ _)
      · split at h
        · exact Nat.le_trans (splitAfterSt_length h) (Nat.le_succ _)
        · split at h
          · simp at h
            subst h
            exact Nat.le_succ _
          · simp at h

/-- The substitution pass, with structural fuel (`fuel ≥ length` always holds
at the call sites, see `stripAnsiList`). -/
def stripAnsiFuel : Nat → List Char → List Char
  | 0, l => l
  | _ + 1, [] => []
  | fuel + 1, c :: rest =>
    if c = escChar then
      match matchEscTail rest with
      | some r => stripAnsiFuel fuel r
      | none => c :: stripAnsiFuel fuel rest
    else c :: stripAnsiFuel fuel rest

/-- `ansi_pattern.sub('', text)` over the character list. -/
def stripAnsiList (l : List Char) : List Char := stripAnsiFuel l.length l

/-- `strip_ansi_codes` applied to a present, non-empty string: the regex
substitution itself. -/
def stripAnsiString (s : String) : String := String.mk (stripAnsiList s.data)

/-- `strip_ansi_codes(text)` from src/api/app.py lines 101-141:
`None` and `""` are returned as themselves (`if not text: return text`),
otherwise every match of the ANSI pattern is removed. -/
def strip_ansi_codes : Option String → Option String
  | none => none
  | some s => if s = "" then some s else some (stripAnsiString s)

theorem string_mk_data (s : String) : String.mk s.data = s := rfl

/-- Every alternative of the pattern begins with ESC, so a string without ESC
has no match and the substitution returns it unchanged. -/
theorem stripAnsiFuel_of_no_esc :
    ∀ (fuel : Nat) (l : List Char), (∀ c ∈ l, c ≠ escChar) →
      stripAnsiFuel fuel l = l := by
  intro fuel
  induction fuel with
  | zero => intro l _; rfl
  | succ n ih =>
    intro l h
    match l with
    | [] => rfl
    | c :: rest =>
      have hc : c ≠ escChar := h c (List.mem_cons_self _ _)
      simp only [stripAnsiFuel, if_neg hc]
      rw [ih rest (fun d hd => h d (List.mem_cons_of_mem _ hd))]

theorem stripAnsiList_of_no_esc {l : List Char} (h : ∀ c ∈ l, c ≠ escChar) :
    stripAnsiList l = l :=
  stripAnsiFuel_of_no_esc l.length l h

/-- C6 (amended): the sanitizer is not idempotent in general, but it is the
identity on every string without an ESC character — in particular on all
plain text — hence idempotent on every input whose first-pass output has no
ESC left; empty and absent input are returned as themselves. -/
theorem strip_ansi_codes_esc_free_behavior :
    (∀ s : String, (∀ c ∈ s.data, c ≠ escChar) → stripAnsiString s = s) ∧
    (∀ s : String, (∀ c ∈ (stripAnsiString s).data, c ≠ escChar) →
        stripAnsiString (stripAnsiString s) = stripAnsiString s) ∧
    strip_ansi_codes (some "") = some "" ∧
    strip_ansi_codes none = none := by
  refine ⟨fun s h => ?_, fun s h => ?_, rfl, rfl⟩
  · rw [stripAnsiString, stripAnsiList_of_no_esc h, string_mk_data]
  · rw [stripAnsiString, show (stripAnsiString s).data = stripAnsiList s.data from rfl]
    rw [show (stripAnsiString s).data = stripAnsiList s.data from rfl] at h
    rw [stripAnsiList_of_no_esc h]
    rfl

/-- C6 (counterexample): `sanitize(sanitize(x)) = sanitize(x)` fails at
`x = "\x1b\x1b[mc"`.  The first pass removes the CSI sequence `\x1b[m`,
bringing the leading ESC next to `c`; the second pass then removes `\x1bc`
(the `[NOc]` alternative), so a pass is lost on each application:
`sanitize(x) = "\x1bc"` but `sanitize(sanitize(x)) = ""`. -/
theorem strip_ansi_codes_not_idempotent :
    stripAnsiString (String.mk [escChar, escChar, '[', 'm', 'c']) =
        String.mk [escChar, 'c'] ∧
    stripAnsiString (stripAnsiString (String.mk [escChar, escChar, '[', 'm', 'c'])) = "" ∧
    stripAnsiString (stripAnsiString (String.mk [escChar, escChar, '[', 'm', 'c'])) ≠
      stripAnsiString (String.mk [escChar, escChar, '[', 'm', 'c']) := by
  refine ⟨by decide, by decide, by decide⟩

/-- A C0 control byte other than tab (9), line-feed (10) and carriage-return
(13), or the DEL byte (127): what the specification requires the sanitizer to
remove. -/
def isDisallowedControl (c : Char) : Bool :=
  (c.toNat < 32 && !(c.toNat == 9 || c.toNat == 10 || c.toNat == 13)) || c.toNat == 127

/-! ### Task store: one report file per task id (src/api/app.py, lines 144-231)

The tasks directory is modelled as an association list from task id to the
file's full text.  `write_task_status` is a truncating write,
`read_task_status` parses the `STATUS:` sentinel line, `delete_task_file`
removes the file. -/

abbrev TasksDir := List (String × String)

def fsLookup : TasksDir → String → Option String
  | [], _ => none
  | (k, v) :: rest, tid => if k = tid then some v else fsLookup rest tid

/-- `open(task_file, 'w')`: truncate when the file exists, create otherwise. -/
def fsWrite : TasksDir → String → String → TasksDir
  | [], tid, text => [(tid, text)]
  | (k, v) :: rest, tid, text =>
    if k = tid then (k, text) :: rest else (k, v) :: fsWrite rest tid text

def TASK_STATUS_PROCESSING : String := "processing"

def TASK_STATUS_COMPLETED : String := "completed"

def TASK_STATUS_ERROR : String := "error"

/-- `write_task_status` (app.py 157-174): write `STATUS:{status}` and a
newline, then the sanitized content (`'' if not content`). -/
def write_task_status (fs : TasksDir) (tid status content : String) : TasksDir :=
  let clean_content := if content = "" then "" else stripAnsiString content
  fsWrite fs tid ("STATUS:" ++ status ++ "\n" ++ clean_content)

/-- `delete_task_file` (app.py 222-231): remove the file when it exists. -/
def delete_task_file (fs : TasksDir) (tid : String) : TasksDir :=
  fs.filter (fun e => e.1 != tid)

/-- Python `str.replace(old, new)` for a non-empty `old`: replace every
non-overlapping occurrence, scanning left to right (structural fuel;
`fuel ≥ length` at the call sites). -/
def pyReplaceFuel : Nat → List Char → List Char → List Char → List Char
  | 0, l, _, _ => l
  | _ + 1, [], _, _ => []
  | fuel + 1, c :: rest, pat, rep =>
    if pat.isPrefixOf (c :: rest) then
      rep ++ pyReplaceFuel fuel (List.drop pat.length (c :: rest)) pat rep
    else c :: pyReplaceFuel fuel rest pat rep

def pyReplace (l pat rep : List Char) : List Char := pyReplaceFuel l.length l pat rep

/-- Python `str.strip()`: drop leading and trailing whitespace. -/
def pyStrip (l : List Char) : List Char :=
  ((l.dropWhile Char.isWhitespace).reverse.dropWhile Char.isWhitespace).reverse

/-- `content.split('\n', 1)`: the text before the first newline, and the
text after it when the string has one. -/
def splitFirstLine : List Char → List Char × Option (List Char)
  | [] => ([], none)
  | c :: rest =>
    if c = '\n' then ([], some rest)
    else
      let p := splitFirstLine rest
      (c :: p.1, p.2)

/-- `read_task_status` (app.py 195-219): `None` for a missing file; parse the
first line's `STATUS:` sentinel, the rest is the content (`''` when the file
has a single line); a file without the sentinel also yields `None`. -/
def read_task_status (fs : TasksDir) (tid : String) : Option (String × String) :=
  match fsLookup fs tid with
  | none => none
  | some text =>
    let p := splitFirstLine text.data
    if "STATUS:".data.isPrefixOf p.1 then
      some (String.mk (pyStrip (pyReplace p.1 "STATUS:".data [])),
        match p.2 with
        | some r => String.mk r
        | none => "")
    else none

/-- Python's `$` in `re.match` also matches just before one newline that ends
the string. -/
def reDollarInput (l : List Char) : List Char :=
  if l.getLast? = some '\n' then l.dropLast else l

/-- `re.match(r'^[a-f0-9]{32}$', task_id)` (app.py 806). -/
def validTaskId (tid : String) : Bool :=
  let l := reDollarInput tid.data
  l.length == 32 && l.all (fun c => c.isDigit || (97 ≤ c.toNat && c.toNat ≤ 102))

/-- `status in (TASK_STATUS_COMPLETED, TASK_STATUS_ERROR)` (app.py 836). -/
def isTerminalStatus (status : String) : Bool :=
  status == TASK_STATUS_COMPLETED || status == TASK_STATUS_ERROR

inductive StatusResponse where
  | invalidTaskId : StatusResponse
  | notFound : StatusResponse
  | ok : String → String → StatusResponse
deriving DecidableEq

/-- `get_task_status` (app.py 782-848): validate the id, read the record,
re-sanitize the content, and delete the file when the returned status is
terminal (completed or error). -/
def get_task_status (fs : TasksDir) (task_id : String) : StatusResponse × TasksDir :=
  if validTaskId task_id then
    match read_task_status fs task_id with
    | none => (StatusResponse.notFound, fs)
    | some (status, content) =>
      let clean_content := if content = "" then content else stripAnsiString content
      let fs' :=
        if status = TASK_STATUS_COMPLETED ∨ status = TASK_STATUS_ERROR then
          delete_task_file fs task_id
        else fs
      (StatusResponse.ok status clean_content, fs')
  else (StatusResponse.invalidTaskId, fs)

theorem fsLookup_delete (fs : TasksDir) (tid : String) :
    fsLookup (delete_task_file fs tid) tid = none := by
  induction fs with
  | nil => rfl
  | cons e rest ih =>
    by_cases h : e.1 = tid
    · simpa [delete_task_file, List.filter_cons, h] using ih
    · simpa [delete_task_file, List.filter_cons, h, fsLookup] using ih

theorem read_task_status_delete (fs : TasksDir) (tid : String) :
    read_task_status (delete_task_file fs tid) tid = none := by
  rw [read_task_status, fsLookup_delete]

/-- C2: a Poll deletes the task record exactly when the status it returns is
terminal.  Reading a record returns its parsed status and re-sanitized
content; when that status is completed or error the file is deleted, so a
second read of the same fingerprint reports not-found; when it is
processing (or any non-terminal string) the tasks directory is left exactly
as it was, so the read may be repeated. -/
theorem get_task_status_consume_once (fs : TasksDir) (tid status content : String)
    (hvalid : validTaskId tid = true)
    (hread : read_task_status fs tid = some (status, content)) :
    (get_task_status fs tid).1 =
        StatusResponse.ok status (if content = "" then content else stripAnsiString content) ∧
    (isTerminalStatus status = true →
        fsLookup (get_task_status fs tid).2 tid = none ∧
        (get_task_status (get_task_status fs tid).2 tid).1 = StatusResponse.notFound) ∧
    (isTerminalStatus status = false → (get_task_status fs tid).2 = fs) := by
  have hterm : isTerminalStatus status = true ↔
      (status = TASK_STATUS_COMPLETED ∨ status = TASK_STATUS_ERROR) := by
    simp [isTerminalStatus]
  refine ⟨?_, ?_, ?_⟩
  · simp [get_task_status, hvalid, hread]
  · intro ht
    have hd : (get_task_status fs tid).2 = delete_task_file fs tid := by
      simp [get_task_status, hvalid, hread, if_pos (hterm.mp ht)]
    refine ⟨by rw [hd]; exact fsLookup_delete fs tid, ?_⟩
    rw [hd]
    simp [get_task_status, hvalid, read_task_status_delete]
  · intro ht
    have hterm' : ¬ (status = TASK_STATUS_COMPLETED ∨ status = TASK_STATUS_ERROR) := by
      intro hc
      rw [hterm.mpr hc] at ht
      simp at ht
    simp [get_task_status, hvalid, hread, if_neg hterm']

def sampleTaskId : String := "0123456789abcdef0123456789abcdef"

def sampleTasksDir : TasksDir := [(sampleTaskId, "STATUS:completed\nline1\n")]

/-- C2 witness: a concrete terminal record is returned once and its file is
gone afterwards, so the second poll reports not-found. -/
theorem get_task_status_consume_once_witness :
    (get_task_status sampleTasksDir sampleTaskId).1 =
        StatusResponse.ok "completed" "line1\n" ∧
    fsLookup (get_task_status sampleTasksDir sampleTaskId).2 sampleTaskId = none ∧
    (get_task_status (get_task_status sampleTasksDir sampleTaskId).2 sampleTaskId).1 =
      StatusResponse.notFound := by
  have h := get_task_status_consume_once sampleTasksDir sampleTaskId "completed" "line1\n"
    (by decide) (by decide)
  refine ⟨?_, (h.2.1 (by decide)).1, (h.2.1 (by decide)).2⟩
  rw [h.1]
  decide

/-! ### Task fingerprint: `generate_task_id` (src/api/app.py, lines 84-98)

`hashlib.md5(f"{script_name}:{server_ip}:{server_root_password}:{additional}"
.encode('utf-8')).hexdigest()`.  MD5 (RFC 1321) is implemented below over
byte lists, words as naturals reduced modulo `2^32`. -/

def w32 (n : Nat) : Nat := n % 4294967296

/-- Bitwise complement of a reduced 32-bit word. -/
def not32 (n : Nat) : Nat := 4294967295 - n

/-- Left-rotation of a reduced 32-bit word by `s < 32` bits. -/
def rotl32 (x s : Nat) : Nat := w32 (x <<< s) + (x >>> (32 - s))

def md5K : List Nat :=
  [0xd76aa478, 0xe8c7b756, 0x242070db, 0xc1bdceee,
   0xf57c0faf, 0x4787c62a, 0xa8304613, 0xfd469501,
   0x698098d8, 0x8b44f7af, 0xffff5bb1, 0x895cd7be,
   0x6b901122, 0xfd987193, 0xa679438e, 0x49b40821,
   0xf61e2562, 0xc040b340, 0x265e5a51, 0xe9b6c7aa,
   0xd62f105d, 0x02441453, 0xd8a1e681, 0xe7d3fbc8,
   0x21e1cde6, 0xc33707d6, 0xf4d50d87, 0x455a14ed,
   0xa9e3e905, 0xfcefa3f8, 0x676f02d9, 0x8d2a4c8a,
   0xfffa3942, 0x8771f681, 0x6d9d6122, 0xfde5380c,
   0xa4beea44, 0x4bdecfa9, 0xf6bb4b60, 0xbebfbc70,
   0x289b7ec6, 0xeaa127fa, 0xd4ef3085, 0x04881d05,
   0xd9d4d039, 0xe6db99e5, 0x1fa27cf8, 0xc4ac5665,
   0xf4292244, 0x432aff97, 0xab9423a7, 0xfc93a039,
   0x655b59c3, 0x8f0ccc92, 0xffeff47d, 0x85845dd1,
   0x6fa87e4f, 0xfe2ce6e0, 0xa3014314, 0x4e0811a1,
   0xf7537e82, 0xbd3af235, 0x2ad7d2bb, 0xeb86d391]

def md5S : List Nat :=
  [7, 12, 17, 22, 7, 12, 17, 22, 7, 12, 17, 22, 7, 12, 17, 22,
   5, 9, 14, 20, 5, 9, 14, 20, 5, 9, 14, 20, 5, 9, 14, 20,
   4, 11, 16, 23, 4, 11, 16, 23, 4, 11, 16, 23, 4, 11, 16, 23,
   6, 10, 15, 21, 6, 10, 15, 21, 6, 10, 15, 21, 6, 10, 15, 21]

def md5F (i b c d : Nat) : Nat :=
  if i < 16 then (b &&& c) ||| (not32 b &&& d)
  else if i < 32 then (d &&& b) ||| (not32 d &&& c)
  else if i < 48 then b ^^^ c ^^^ d
  else c ^^^ (b ||| not32 d)

def md5G (i : Nat) : Nat :=
  if i < 16 then i
  else if i < 32 then (5 * i + 1) % 16
  else if i < 48 then (3 * i + 5) % 16
  else (7 * i) % 16

def md5Step (M : List Nat) (st : Nat × Nat × Nat × Nat) (i : Nat) : Nat × Nat × Nat × Nat :=
  let x := w32 (st.1 + md5F i st.2.1 st.2.2.1 st.2.2.2 + md5K.getD i 0 + M.getD (md5G i) 0)
  (st.2.2.2, w32 (st.2.1 + rotl32 x (md5S.getD i 0)), st.2.1, st.2.2.1)

def md5ProcessChunk (st : Nat × Nat × Nat × Nat) (M : List Nat) : Nat × Nat × Nat × Nat :=
  let r := (List.range 64).foldl (md5Step M) st
  (w32 (st.1 + r.1), w32 (st.2.1 + r.2.1), w32 (st.2.2.1 + r.2.2.1), w32 (st.2.2.2 + r.2.2.2))

/-- A 64-byte chunk as 16 little-endian 32-bit words. -/
def md5Words (chunk : List Nat) : List Nat :=
  (List.range 16).map fun i =>
    chunk.getD (4 * i) 0 + 256 * chunk.getD (4 * i + 1) 0 +
      65536 * chunk.getD (4 * i + 2) 0 + 16777216 * chunk.getD (4 * i + 3) 0

/-- Append `0x80`, zero bytes to 56 mod 64, then the bit length as eight
little-endian bytes. -/
def md5Pad (msg : List Nat) : List Nat :=
  let len := msg.length
  let zeros := (120 - (len + 1) % 64) % 64
  let bits := (8 * len) % 18446744073709551616
  msg ++ 128 :: List.replicate zeros 0 ++ (List.range 8).map fun k => (bits >>> (8 * k)) &&& 255

def md5WordBytes (ww : Nat) : List Nat :=
  [ww &&& 255, (ww >>> 8) &&& 255, (ww >>> 16) &&& 255, (ww >>> 24) &&& 255]

def md5Digest (msg : List Nat) : List Nat :=
  let padded := md5Pad msg
  let chunks := (List.range (padded.length / 64)).map fun i => (padded.drop (64 * i)).take 64
  let st := chunks.foldl (fun st ch => md5ProcessChunk st (md5Words ch))
    (0x67452301, 0xefcdab89, 0x98badcfe, 0x10325476)
  md5WordBytes st.1 ++ md5WordBytes st.2.1 ++ md5WordBytes st.2.2.1 ++ md5WordBytes st.2.2.2

def hexDigitChar (n : Nat) : Char := if n < 10 then Char.ofNat (48 + n) else Char.ofNat (87 + n)

/-- `hexdigest()`: lowercase hexadecimal of the sixteen digest bytes. -/
def md5Hex (msg : List Nat) : String :=
  String.mk (((md5Digest msg).map fun b => [hexDigitChar (b / 16), hexDigitChar (b % 16)]).flatten)

/-- UTF-8 bytes of one character (`str.encode('utf-8')` acts per code point). -/
def utf8Bytes (c : Char) : List Nat :=
  let n := c.toNat
  if n < 128 then [n]
  else if n < 2048 then [192 + n / 64, 128 + n % 64]
  else if n < 65536 then [224 + n / 4096, 128 + n / 64 % 64, 128 + n % 64]
  else [240 + n / 262144, 128 + n / 4096 % 64, 128 + n / 64 % 64, 128 + n % 64]

def encodeUtf8 (s : String) : List Nat := (s.data.map utf8Bytes).flatten

/-- `data = f"{script_name}:{server_ip}:{server_root_password}:{additional}"`
(app.py line 97): the string MD5 is taken of. -/
def task_id_data (script_name server_ip server_root_password additional : String) : String :=
  script_name ++ ":" ++ server_ip ++ ":" ++ server_root_password ++ ":" ++ additional

/-- `generate_task_id` (app.py 84-98). -/
def generate_task_id (script_name server_ip server_root_password additional : String) : String :=
  md5Hex (encodeUtf8 (task_id_data script_name server_ip server_root_password additional))

/-- RFC 1321 test vector: the implementation above is MD5. -/
theorem md5Hex_vector_empty : md5Hex (encodeUtf8 "") = "d41d8cd98f00b204e9800998ecf8427e" := by
  decide

/-- RFC 1321 test vector. -/
theorem md5Hex_vector_abc : md5Hex (encodeUtf8 "abc") = "900150983cd24fb0d6963f7d28e17f72" := by
  decide

/-- C8 (counterexample): two tuples that differ in the credential and in the
extra-arguments field receive the identical fingerprint with certainty, not
merely with negligible probability: the fields are joined with `:` into one
string before hashing, and a field may itself contain `:`, so
`("s","1.2.3.4","p:q","")` and `("s","1.2.3.4","p","q:")` both hash
`"s:1.2.3.4:p:q:"`. -/
theorem generate_task_id_collision :
    generate_task_id "s" "1.2.3.4" "p:q" "" = generate_task_id "s" "1.2.3.4" "p" "q:" ∧
    ¬ ("p:q" = "p" ∧ "" = "q:") := by
  exact ⟨rfl, by decide⟩

/-- C8 (amended): the fingerprint is deterministic — a pure function of the
tuple — and it depends on the tuple only through the colon-joined data
string, so equal tuples always receive the identical fingerprint, but so do
distinct tuples whose joined strings coincide (see the counterexample); the
remaining distinctness of the digests of distinct data strings is MD5's
collision resistance, outside this model. -/
theorem generate_task_id_deterministic :
    (∀ a b c d : String, generate_task_id a b c d = generate_task_id a b c d) ∧
    (∀ a b c d a2 b2 c2 d2 : String,
      task_id_data a b c d = task_id_data a2 b2 c2 d2 →
      generate_task_id a b c d = generate_task_id a2 b2 c2 d2) := by
  refine ⟨fun a b c d => rfl, fun a b c d a2 b2 c2 d2 h => ?_⟩
  unfold generate_task_id
  rw [h]

/-! ### Submit: the `/api/install` handler (src/api/app.py, lines 670-779) -/

/-- `script_name.replace('-', '').replace('_', '').isalnum()` (app.py 727);
`str.isalnum` taken on its ASCII fragment. -/
def valid_script_name (script_name : String) : Bool :=
  let s := script_name.data.filter fun c => c != '-' && c != '_'
  !s.isEmpty && s.all Char.isAlphanum

/-- Python `str.split(sep)` for a one-character separator. -/
def splitOnChar (sep : Char) : List Char → List (List Char)
  | [] => [[]]
  | c :: rest =>
    let ps := splitOnChar sep rest
    if c = sep then [] :: ps
    else
      match ps with
      | p :: ps2 => (c :: p) :: ps2
      | [] => [[c]]

/-- `re.match(r'^(\d{1,3}\.){3}\d{1,3}$', server_ip)` (app.py 735): four
dot-separated groups of one to three ASCII digits. -/
def valid_server_ip (server_ip : String) : Bool :=
  let parts := splitOnChar '.' (reDollarInput server_ip.data)
  parts.length == 4 && parts.all fun p =>
    (p.length == 1 || p.length == 2 || p.length == 3) && p.all Char.isDigit

inductive InstallResponse where
  | missingFields : InstallResponse
  | invalidScriptName : InstallResponse
  | invalidServerIp : InstallResponse
  | alreadyProcessing : String → InstallResponse
  | started : String → InstallResponse
deriving DecidableEq

/-- `install` (app.py 670-779), past the API-key and rate-limit decorators and
with the SSH library present: validate the fields, compute the fingerprint,
and either return the existing Processing record's fingerprint unchanged
(single-flight dedup) or create a fresh Processing record and start exactly
one background worker.  The Bool records whether a worker thread was
started. -/
def install (fs : TasksDir) (script_name server_ip server_root_password additional : String) :
    InstallResponse × TasksDir × Bool :=
  if script_name = "" ∨ server_ip = "" ∨ server_root_password = "" then
    (InstallResponse.missingFields, fs, false)
  else if valid_script_name script_name = false then
    (InstallResponse.invalidScriptName, fs, false)
  else if valid_server_ip server_ip = false then
    (InstallResponse.invalidServerIp, fs, false)
  else
    let task_id := generate_task_id script_name server_ip server_root_password additional
    let existing_status := (read_task_status fs task_id).map Prod.fst
    if existing_status = some TASK_STATUS_PROCESSING then
      (InstallResponse.alreadyProcessing task_id, fs, false)
    else
      (InstallResponse.started task_id,
       write_task_status fs task_id TASK_STATUS_PROCESSING
         ("Starting installation of '" ++ script_name ++ "' on " ++ server_ip ++ "...\n"),
       true)

/-- C3: a Submit whose tuple's fingerprint already has a record in status
Processing returns that existing fingerprint, does not overwrite the record
(the task store is returned untouched), and does not start a second
background worker. -/
theorem install_single_flight (fs : TasksDir)
    (script_name server_ip server_root_password additional content : String)
    (hmiss : ¬ (script_name = "" ∨ server_ip = "" ∨ server_root_password = ""))
    (hscript : valid_script_name script_name = true)
    (hip : valid_server_ip server_ip = true)
    (hproc : read_task_status fs
        (generate_task_id script_name server_ip server_root_password additional) =
      some (TASK_STATUS_PROCESSING, content)) :
    install fs script_name server_ip server_root_password additional =
      (InstallResponse.alreadyProcessing
          (generate_task_id script_name server_ip server_root_password additional),
        fs, false) := by
  rw [install, if_neg hmiss, if_neg (by simp [hscript]), if_neg (by simp [hip])]
  simp [hproc]

/-- The MD5 of `"demo:1.2.3.4:p:"` as a literal key: a Processing record for
the tuple `("demo", "1.2.3.4", "p", "")`. -/
def sampleInstallDir : TasksDir :=
  [("70fa3e009ed92ab574d86f9513f4c361",
    "STATUS:processing\nStarting installation of 'demo' on 1.2.3.4...\n")]

/-- C3 witness: re-submitting the concrete tuple `("demo","1.2.3.4","p","")`
while its record is Processing returns the same fingerprint, the unchanged
store, and no new worker. -/
theorem install_single_flight_witness :
    install sampleInstallDir "demo" "1.2.3.4" "p" "" =
      (InstallResponse.alreadyProcessing "70fa3e009ed92ab574d86f9513f4c361",
        sampleInstallDir, false) := by
  have h := install_single_flight sampleInstallDir "demo" "1.2.3.4" "p" ""
    "Starting installation of 'demo' on 1.2.3.4...\n"
    (by decide) (by decide) (by decide) (by decide)
  rw [h]
  decide

/-- C7 (code bug): every alternative of the pattern in `strip_ansi_codes`
requires a leading ESC, so a bare C0 control byte (here BEL = `\x07`) and a
DEL byte pass through unchanged, and a stray ESC survives as well; the
specification — and the repository's own test of the extended sanitizer
(src/experiments/test_strip_ansi.py, the issue-54 tests) — require them
removed. -/
theorem strip_ansi_codes_keeps_bare_control_bytes :
    stripAnsiString "Text\x07here" = "Text\x07here" ∧
    (stripAnsiString "Text\x07here").data.any isDisallowedControl = true ∧
    stripAnsiString "a\x7Fb" = "a\x7Fb" ∧
    (stripAnsiString "a\x7Fb").data.any isDisallowedControl = true ∧
    stripAnsiString (String.mk [escChar]) = String.mk [escChar] ∧
    (stripAnsiString (String.mk [escChar])).data.any isDisallowedControl = true := by
  refine ⟨by decide, by decide, by decide, by decide, by decide, by decide⟩

/-! ### Rate limiter (src/api/rate_limiter.py)

The SQLite tables are modelled as lists: `request_log` rows
(ip_address, endpoint, timestamp) and `blocked_ips` rows
(ip_address, reason, blocked_until, is_permanent) with `ip_address` unique.
Timestamps (`time.time()` floats and `datetime` values) live on a single
time axis in seconds, modelled by the integers: the code uses only ordering
and adding/subtracting constant offsets, which the model preserves; each
operation takes the current instant as a parameter. -/

structure RateLimiter where
  enabled : Bool
  max_requests : Nat
  time_window : Nat

structure RequestLogEntry where
  ip_address : String
  endpoint : String
  timestamp : ℤ
deriving DecidableEq

structure BlockedIp where
  ip_address : String
  reason : String
  blocked_until : Option ℤ
  is_permanent : Bool
deriving DecidableEq

structure RateLimiterDb where
  request_log : List RequestLogEntry
  blocked_ips : List BlockedIp
deriving DecidableEq

/-- `SELECT ... FROM blocked_ips WHERE ip_address = ?` (unique column). -/
def lookupBlocked : List BlockedIp → String → Option BlockedIp
  | [], _ => none
  | e :: rest, ip => if e.ip_address = ip then some e else lookupBlocked rest ip

/-- `DELETE FROM blocked_ips WHERE ip_address = ?`. -/
def removeBlocked (l : List BlockedIp) (ip : String) : List BlockedIp :=
  l.filter fun e => e.ip_address != ip

/-- `INSERT OR REPLACE INTO blocked_ips` on the unique `ip_address`. -/
def upsertBlocked (l : List BlockedIp) (e : BlockedIp) : List BlockedIp :=
  removeBlocked l e.ip_address ++ [e]

/-- `RateLimiter._is_blocked_internal` (rate_limiter.py 116-152): no row —
not blocked; a permanent row — blocked; a temporary row whose
`blocked_until` has passed — deleted and reported not blocked; any other
row (unexpired, or with no `blocked_until` at all) — blocked with the
stored reason. -/
def is_blocked_internal (bl : List BlockedIp) (now : ℤ) (ip_address : String) :
    (Bool × Option String) × List BlockedIp :=
  match lookupBlocked bl ip_address with
  | none => ((false, none), bl)
  | some row =>
    if row.is_permanent then ((true, some row.reason), bl)
    else
      match row.blocked_until with
      | some t =>
        if t < now then ((false, none), removeBlocked bl ip_address)
        else ((true, some row.reason), bl)
      | none => ((true, some row.reason), bl)

/-- `COUNT(*) FROM request_log WHERE ip_address = ? AND timestamp > ?`. -/
def window_count (log : List RequestLogEntry) (ip_address : String) (window_start : ℤ) : Nat :=
  (log.filter fun e => e.ip_address == ip_address && decide (window_start < e.timestamp)).length

/-- `f'Rate limit exceeded: {count} requests in {self.time_window} seconds'`. -/
def rate_limit_reason (count time_window : Nat) : String :=
  "Rate limit exceeded: " ++ toString count ++ " requests in " ++
    toString time_window ++ " seconds"

/-- `RateLimiter.record_request` (rate_limiter.py 174-239): pass through when
disabled; deny without logging when blocked; otherwise insert the request,
count the source's requests inside the trailing window (the new row
included), prune rows older than one hour, and when the count strictly
exceeds `max_requests` insert a one-hour temporary block and deny. -/
def record_request (rl : RateLimiter) (db : RateLimiterDb) (now : ℤ)
    (ip_address endpoint : String) : (Bool × Nat × Option String) × RateLimiterDb :=
  if rl.enabled = false then ((true, 0, none), db)
  else
    let rb := is_blocked_internal db.blocked_ips now ip_address
    if rb.1.1 then ((false, 0, rb.1.2), { db with blocked_ips := rb.2 })
    else
      let log1 := db.request_log ++ [⟨ip_address, endpoint, now⟩]
      let count := window_count log1 ip_address (now - (rl.time_window : ℤ))
      let log2 := log1.filter fun e => !(decide (e.timestamp < now - 3600))
      if rl.max_requests < count then
        let reason := rate_limit_reason count rl.time_window
        ((false, count, some reason),
         { request_log := log2,
           blocked_ips := upsertBlocked rb.2 ⟨ip_address, reason, some (now + 3600), false⟩ })
      else ((true, count, none), { request_log := log2, blocked_ips := rb.2 })

/-- `RateLimiter.block_ip` (rate_limiter.py 241-272): `blocked_until` is set
only when the block is not permanent and `duration_hours` is truthy
(neither `None` nor `0`). -/
def block_ip (rl : RateLimiter) (db : RateLimiterDb) (now : ℤ) (ip_address reason : String)
    (permanent : Bool) (duration_hours : Option ℤ) : Bool × RateLimiterDb :=
  if rl.enabled = false then (false, db)
  else
    let blocked_until : Option ℤ :=
      match duration_hours with
      | some d => if permanent = false ∧ d ≠ 0 then some (now + d * 3600) else none
      | none => none
    (true,
     { db with blocked_ips :=
        upsertBlocked db.blocked_ips ⟨ip_address, reason, blocked_until, permanent⟩ })

/-- `RateLimiter.unblock_ip` (rate_limiter.py 274-298): delete the row and
report whether one was deleted (`cursor.rowcount > 0`). -/
def unblock_ip (rl : RateLimiter) (db : RateLimiterDb) (ip_address : String) :
    Bool × RateLimiterDb :=
  if rl.enabled = false then (false, db)
  else
    let remaining := removeBlocked db.blocked_ips ip_address
    (decide (remaining.length < db.blocked_ips.length),
     { db with blocked_ips := remaining })

theorem lookupBlocked_remove (l : List BlockedIp) (ip : String) :
    lookupBlocked (removeBlocked l ip) ip = none := by
  induction l with
  | nil => rfl
  | cons e rest ih =>
    by_cases h : e.ip_address = ip
    · simpa [removeBlocked, List.filter_cons, h] using ih
    · simpa [removeBlocked, List.filter_cons, h, lookupBlocked] using ih

theorem lookupBlocked_upsert (l : List BlockedIp) (e : BlockedIp) :
    lookupBlocked (upsertBlocked l e) e.ip_address = some e := by
  unfold upsertBlocked
  induction l with
  | nil => simp [removeBlocked, lookupBlocked]
  | cons f rest ih =>
    by_cases h : f.ip_address = e.ip_address
    · simpa [removeBlocked, List.filter_cons, h] using ih
    · simpa [removeBlocked, List.filter_cons, h, lookupBlocked] using ih

theorem removeBlocked_length_lt (l : List BlockedIp) (ip : String) (e : BlockedIp)
    (h : lookupBlocked l ip = some e) :
    (removeBlocked l ip).length < l.length := by
  induction l with
  | nil => simp [lookupBlocked] at h
  | cons f rest ih =>
    by_cases hf : f.ip_address = ip
    · have : (removeBlocked rest ip).length ≤ rest.length :=
        List.length_filter_le _ _
      simp only [removeBlocked, List.filter_cons, bne, hf]
      simpa [removeBlocked] using Nat.lt_succ_of_le this
    · simp only [lookupBlocked, if_neg hf] at h
      simp only [removeBlocked, List.filter_cons]
      have hbe : (f.ip_address != ip) = true := by simp [bne, hf]
      rw [hbe]
      simpa [removeBlocked] using Nat.succ_lt_succ (ih h)

/-- The in-window count `record_request` compares against the maximum: the
count for `ip_address` over the log with the current request already
inserted, inside the trailing window ending now. -/
def post_insert_count (rl : RateLimiter) (db : RateLimiterDb) (now : ℤ)
    (ip_address endpoint : String) : Nat :=
  window_count (db.request_log ++ [⟨ip_address, endpoint, now⟩]) ip_address
    (now - (rl.time_window : ℤ))

/-- A row of `blocked_ips` that is live at `now`: permanent, without an
expiry, or with an expiry that has not passed (`datetime.now() > blocked_until`
is false). -/
def blockLiveAt (row : BlockedIp) (now : ℤ) : Prop :=
  row.is_permanent = true ∨ row.blocked_until = none ∨
    ∃ t, row.blocked_until = some t ∧ ¬ t < now

theorem is_blocked_internal_of_live (bl : List BlockedIp) (now : ℤ) (ip : String)
    (row : BlockedIp) (hrow : lookupBlocked bl ip = some row)
    (hlive : blockLiveAt row now) :
    is_blocked_internal bl now ip = ((true, some row.reason), bl) := by
  rw [is_blocked_internal, hrow]
  rcases hlive with hp | hn | ⟨t, ht, hlt⟩
  · simp [hp]
  · by_cases hperm : row.is_permanent <;> simp [hperm, hn]
  · by_cases hperm : row.is_permanent <;> simp [hperm, ht, hlt]

theorem record_request_of_blocked (rl : RateLimiter) (db : RateLimiterDb) (now : ℤ)
    (ip endpoint : String) (hen : rl.enabled = true)
    (hb : (is_blocked_internal db.blocked_ips now ip).1.1 = true) :
    record_request rl db now ip endpoint =
      ((false, 0, (is_blocked_internal db.blocked_ips now ip).1.2),
        { db with blocked_ips := (is_blocked_internal db.blocked_ips now ip).2 }) := by
  rw [record_request, if_neg (by simp [hen])]
  simp [hb]

/-- C5: an admission check rejects a source with a live block entry whatever
its window count (the request log is universally quantified through `db`); a
temporary entry whose expiry has passed is deleted by the very lookup and
the source treated as not blocked; a permanent entry is blocked at every
instant. -/
theorem rate_limiter_lazy_expiry (bl : List BlockedIp) (ip : String) (row : BlockedIp)
    (hrow : lookupBlocked bl ip = some row) :
    (∀ now : ℤ, blockLiveAt row now →
      is_blocked_internal bl now ip = ((true, some row.reason), bl)) ∧
    (∀ now t : ℤ, row.is_permanent = false → row.blocked_until = some t → t < now →
      is_blocked_internal bl now ip = ((false, none), removeBlocked bl ip) ∧
      lookupBlocked (removeBlocked bl ip) ip = none) ∧
    (∀ now : ℤ, row.is_permanent = true →
      is_blocked_internal bl now ip = ((true, some row.reason), bl)) ∧
    (∀ (rl : RateLimiter) (db : RateLimiterDb) (endpoint : String) (now : ℤ),
      rl.enabled = true → db.blocked_ips = bl → blockLiveAt row now →
      (record_request rl db now ip endpoint).1.1 = false) := by
  refine ⟨fun now hlive => is_blocked_internal_of_live bl now ip row hrow hlive,
    fun now t hperm ht hlt => ?_,
    fun now hperm => is_blocked_internal_of_live bl now ip row hrow (Or.inl hperm),
    fun rl db endpoint now hen hdb hlive => ?_⟩
  · constructor
    · rw [is_blocked_internal, hrow]
      simp [hperm, ht, hlt]
    · exact lookupBlocked_remove bl ip
  · have hib := is_blocked_internal_of_live db.blocked_ips now ip row (by rw [hdb]; exact hrow)
      hlive
    have h := record_request_of_blocked rl db now ip endpoint hen (by rw [hib])
    rw [h]

def sampleBlockRow : BlockedIp :=
  ⟨"5.6.7.8", "Rate limit exceeded: 11 requests in 60 seconds", some 100, false⟩

def sampleBlockedList : List BlockedIp := [sampleBlockRow]

/-- C5 witness: a concrete temporary block (expiry 100) is still enforced at
instant 50 and is deleted by the lookup at instant 200, after which the
entry is gone. -/
theorem rate_limiter_lazy_expiry_witness :
    is_blocked_internal sampleBlockedList 50 "5.6.7.8" =
      ((true, some "Rate limit exceeded: 11 requests in 60 seconds"), sampleBlockedList) ∧
    is_blocked_internal sampleBlockedList 200 "5.6.7.8" =
      ((false, none), removeBlocked sampleBlockedList "5.6.7.8") ∧
    lookupBlocked (removeBlocked sampleBlockedList "5.6.7.8") "5.6.7.8" = none := by
  have h := rate_limiter_lazy_expiry sampleBlockedList "5.6.7.8" sampleBlockRow (by decide)
  refine ⟨h.1 50 (Or.inr (Or.inr ⟨100, rfl, by norm_num⟩)), ?_, ?_⟩
  · exact (h.2.1 200 100 rfl rfl (by norm_num)).1
  · exact (h.2.1 200 100 rfl rfl (by norm_num)).2

/-- C4: the rate-limit comparison is strictly greater-than the configured
maximum.  For a source that is not blocked, the admission decision is
`allowed ↔ count ≤ max_requests` where the count already includes the
current request — so the request that brings the in-window count to exactly
`max_requests` is allowed, and only a count strictly above it is denied, at
which point a one-hour temporary block with the generated reason is
inserted for the source. -/
theorem record_request_strict_threshold (rl : RateLimiter) (db : RateLimiterDb) (now : ℤ)
    (ip endpoint : String)
    (hen : rl.enabled = true)
    (hnb : (is_blocked_internal db.blocked_ips now ip).1.1 = false) :
    ((record_request rl db now ip endpoint).1.1 = true ↔
        post_insert_count rl db now ip endpoint ≤ rl.max_requests) ∧
    (record_request rl db now ip endpoint).1.2.1 = post_insert_count rl db now ip endpoint ∧
    (rl.max_requests < post_insert_count rl db now ip endpoint →
      (record_request rl db now ip endpoint).1 =
        (false, post_insert_count rl db now ip endpoint,
          some (rate_limit_reason (post_insert_count rl db now ip endpoint) rl.time_window)) ∧
      lookupBlocked (record_request rl db now ip endpoint).2.blocked_ips ip =
        some ⟨ip, rate_limit_reason (post_insert_count rl db now ip endpoint) rl.time_window,
          some (now + 3600), false⟩) ∧
    (post_insert_count rl db now ip endpoint ≤ rl.max_requests →
      (record_request rl db now ip endpoint).1 =
        (true, post_insert_count rl db now ip endpoint, none)) := by
  have hbody : record_request rl db now ip endpoint =
      (if rl.max_requests < post_insert_count rl db now ip endpoint then
        ((false, post_insert_count rl db now ip endpoint,
            some (rate_limit_reason (post_insert_count rl db now ip endpoint) rl.time_window)),
          { request_log := (db.request_log ++ [(⟨ip, endpoint, now⟩ : RequestLogEntry)]).filter
              fun e => !(decide (e.timestamp < now - 3600)),
            blocked_ips := upsertBlocked (is_blocked_internal db.blocked_ips now ip).2
              ⟨ip, rate_limit_reason (post_insert_count rl db now ip endpoint) rl.time_window,
                some (now + 3600), false⟩ })
      else
        ((true, post_insert_count rl db now ip endpoint, none),
          { request_log := (db.request_log ++ [(⟨ip, endpoint, now⟩ : RequestLogEntry)]).filter
              fun e => !(decide (e.timestamp < now - 3600)),
            blocked_ips := (is_blocked_internal db.blocked_ips now ip).2 })) := by
    rw [record_request, if_neg (by simp [hen])]
    simp only [hnb, post_insert_count, rate_limit_reason]
    rw [if_neg (fun h => Bool.noConfusion h)]
  by_cases hc : rl.max_requests < post_insert_count rl db now ip endpoint
  · rw [hbody, if_pos hc]
    refine ⟨?_, rfl, fun _ => ⟨rfl, ?_⟩, fun hle => absurd hc (Nat.not_lt.mpr hle)⟩
    · simp [Nat.not_le.mpr hc]
    · exact lookupBlocked_upsert _ _
  · rw [hbody, if_neg hc]
    exact ⟨by simp [Nat.not_lt.mp hc], rfl, fun h => absurd h hc, fun _ => rfl⟩

def rlSample : RateLimiter := ⟨true, 3, 60⟩

def dbAtMax : RateLimiterDb :=
  ⟨[⟨"1.2.3.4", "/api/install", 1⟩, ⟨"1.2.3.4", "/api/install", 2⟩], []⟩

def dbOverMax : RateLimiterDb :=
  ⟨[⟨"1.2.3.4", "/api/install", 1⟩, ⟨"1.2.3.4", "/api/install", 2⟩,
    ⟨"1.2.3.4", "/api/install", 3⟩], []⟩

/-- C4 witness (max 3, window 60s): the request that brings the in-window
count to exactly 3 is allowed with that count; the one that brings it to 4
is denied with the generated reason and a temporary block until
`now + 3600`. -/
theorem record_request_strict_threshold_witness :
    (record_request rlSample dbAtMax 3 "1.2.3.4" "/api/install").1 = (true, 3, none) ∧
    (record_request rlSample dbOverMax 4 "1.2.3.4" "/api/install").1 =
      (false, 4, some "Rate limit exceeded: 4 requests in 60 seconds") ∧
    lookupBlocked (record_request rlSample dbOverMax 4 "1.2.3.4" "/api/install").2.blocked_ips
        "1.2.3.4" =
      some ⟨"1.2.3.4", "Rate limit exceeded: 4 requests in 60 seconds", some 3604, false⟩ := by
  have h1 := record_request_strict_threshold rlSample dbAtMax 3 "1.2.3.4" "/api/install"
    rfl (by decide)
  have h2 := record_request_strict_threshold rlSample dbOverMax 4 "1.2.3.4" "/api/install"
    rfl (by decide)
  refine ⟨?_, ?_, ?_⟩
  · rw [h1.2.2.2 (by decide)]
    decide
  · rw [(h2.2.2.1 (by decide)).1]
    decide
  · rw [(h2.2.2.1 (by decide)).2]
    decide

/-- C9: an admission check for a source holding a live (non-expired) block
entry denies the request carrying the stored reason and a count of zero,
and it does not append to the request log — the whole store, request log
included, is returned unchanged. -/
theorem record_request_blocked_frame (rl : RateLimiter) (db : RateLimiterDb) (now : ℤ)
    (ip endpoint : String) (row : BlockedIp)
    (hen : rl.enabled = true)
    (hrow : lookupBlocked db.blocked_ips ip = some row)
    (hlive : blockLiveAt row now) :
    (record_request rl db now ip endpoint).1 = (false, 0, some row.reason) ∧
    (record_request rl db now ip endpoint).2.request_log = db.request_log ∧
    (record_request rl db now ip endpoint).2 = db := by
  have hib := is_blocked_internal_of_live db.blocked_ips now ip row hrow hlive
  have h := record_request_of_blocked rl db now ip endpoint hen (by rw [hib])
  rw [h, hib]
  exact ⟨rfl, rfl, rfl⟩

def dbPermBlocked : RateLimiterDb :=
  ⟨[⟨"9.9.9.9", "/api/install", 1⟩], [⟨"9.9.9.9", "Manual block", none, true⟩]⟩

/-- C9 witness: a permanently blocked source is denied with the stored
reason and the store — its request log in particular — is unchanged. -/
theorem record_request_blocked_frame_witness :
    (record_request rlSample dbPermBlocked 5 "9.9.9.9" "/api/install").1 =
      (false, 0, some "Manual block") ∧
    (record_request rlSample dbPermBlocked 5 "9.9.9.9" "/api/install").2 = dbPermBlocked := by
  have h := record_request_blocked_frame rlSample dbPermBlocked 5 "9.9.9.9" "/api/install"
    ⟨"9.9.9.9", "Manual block", none, true⟩ rfl (by decide) (Or.inl rfl)
  exact ⟨h.1, h.2.2⟩

/-- C10: `block_ip` with `permanent=False` and the default
`duration_hours=None` inserts a block row with no expiry; such a row is
reported blocked at every later instant (the expiry branch never fires, so
the block never lapses by time), and only an explicit `unblock_ip` removes
it, which succeeds and leaves no row behind. -/
theorem block_ip_no_duration_indefinite (rl : RateLimiter) (db : RateLimiterDb) (now : ℤ)
    (ip reason : String) (hen : rl.enabled = true) :
    (block_ip rl db now ip reason false none).1 = true ∧
    lookupBlocked (block_ip rl db now ip reason false none).2.blocked_ips ip =
      some ⟨ip, reason, none, false⟩ ∧
    (∀ now2 : ℤ,
      is_blocked_internal (block_ip rl db now ip reason false none).2.blocked_ips now2 ip =
        ((true, some reason), (block_ip rl db now ip reason false none).2.blocked_ips)) ∧
    (unblock_ip rl (block_ip rl db now ip reason false none).2 ip).1 = true ∧
    lookupBlocked (unblock_ip rl (block_ip rl db now ip reason false none).2 ip).2.blocked_ips
      ip = none := by
  have hdb : (block_ip rl db now ip reason false none).2.blocked_ips =
      upsertBlocked db.blocked_ips ⟨ip, reason, none, false⟩ := by
    rw [block_ip, if_neg (by simp [hen])]
  have hlook : lookupBlocked (block_ip rl db now ip reason false none).2.blocked_ips ip =
      some ⟨ip, reason, none, false⟩ := by
    rw [hdb]
    exact lookupBlocked_upsert db.blocked_ips ⟨ip, reason, none, false⟩
  refine ⟨by rw [block_ip, if_neg (by simp [hen])], hlook, fun now2 => ?_, ?_, ?_⟩
  · exact is_blocked_internal_of_live _ now2 ip ⟨ip, reason, none, false⟩ hlook
      (Or.inr (Or.inl rfl))
  · rw [unblock_ip, if_neg (by simp [hen])]
    simp only [decide_eq_true_eq]
    exact removeBlocked_length_lt _ ip ⟨ip, reason, none, false⟩ hlook
  · rw [unblock_ip, if_neg (by simp [hen])]
    exact lookupBlocked_remove _ ip

/-- C10 witness: blocking `8.8.8.8` manually with no duration yields an
entry that is still enforced at the much later instant 99999 and that
`unblock_ip` removes. -/
theorem block_ip_no_duration_indefinite_witness :
    (block_ip rlSample ⟨[], []⟩ 10 "8.8.8.8" "Manual block" false none).1 = true ∧
    is_blocked_internal
        (block_ip rlSample ⟨[], []⟩ 10 "8.8.8.8" "Manual block" false none).2.blocked_ips
        99999 "8.8.8.8" =
      ((true, some "Manual block"),
        (block_ip rlSample ⟨[], []⟩ 10 "8.8.8.8" "Manual block" false none).2.blocked_ips) ∧
    (unblock_ip rlSample
        (block_ip rlSample ⟨[], []⟩ 10 "8.8.8.8" "Manual block" false none).2 "8.8.8.8").1 =
      true := by
  have h := block_ip_no_duration_indefinite rlSample ⟨[], []⟩ 10 "8.8.8.8" "Manual block" rfl
  exact ⟨h.1, h.2.2.1 99999, h.2.2.2.1⟩

/-! ### Remote command construction (src/api/app.py, lines 515-525 and
601-608), and the per-token escaping the repository's own experiment
src/experiments/test_escape_shell_args.py specifies for it -/

def SCRIPTS_BASE_URL : String :=
  "https://raw.githubusercontent.com/andchir/install_scripts/refs/heads/main/scripts"

/-- `script_url = f"{SCRIPTS_BASE_URL}/{script_name}.sh"`. -/
def script_url (script_name : String) : String :=
  SCRIPTS_BASE_URL ++ "/" ++ script_name ++ ".sh"

def squoteChar : Char := Char.ofNat 39

def dquoteChar : Char := Char.ofNat 34

/-- Python `str.replace(old, new)` for a one-character `old`. -/
def pyReplaceChar (l : List Char) (old : Char) (rep : List Char) : List Char :=
  (l.map fun c => if c = old then rep else [c]).flatten

/-- `"'\"'\"'"`: the five characters quote, double-quote, quote,
double-quote, quote that `additional.replace("'", "'\"'\"'")` puts in place
of each single quote. -/
def squoteEscape : List Char := [squoteChar, dquoteChar, squoteChar, dquoteChar, squoteChar]

/-- The command `execute_script_via_ssh` and `execute_script_via_ssh_async`
build (app.py 519-525 and 604-608): when `additional` is non-empty the
whole string — its single quotes escaped — is wrapped in ONE pair of single
quotes. -/
def build_install_command (url additional : String) : String :=
  if additional = "" then "curl -fsSL -o- " ++ url ++ " | bash"
  else
    let escaped_additional := String.mk (pyReplaceChar additional.data squoteChar squoteEscape)
    "curl -fsSL -o- " ++ url ++ " | bash -s -- '" ++ escaped_additional ++ "'"

/-- Python `str.split()` with no argument: split on whitespace runs,
discarding empty pieces. -/
def splitWsRaw : List Char → List (List Char)
  | [] => [[]]
  | c :: rest =>
    let ps := splitWsRaw rest
    if c.isWhitespace then [] :: ps
    else
      match ps with
      | q :: qs => (c :: q) :: qs
      | [] => [[c]]

/-- `escape_shell_args` (src/experiments/test_escape_shell_args.py, lines
14-39; its header says it is the same function as in api/app.py and
gui/main.py): split the extra arguments on whitespace and quote each token
separately, escaping embedded single quotes. -/
def escape_shell_args (additional : String) : String :=
  if additional = "" then ""
  else
    let args := (splitWsRaw additional.data).filter fun q => !q.isEmpty
    String.intercalate " " (args.map fun a =>
      String.mk (squoteChar :: (pyReplaceChar a squoteChar squoteEscape ++ [squoteChar])))

/-- The characters up to and including the closing `q`, and the rest;
`none` when `q` never comes. -/
def takeUntilChar (q : Char) : List Char → Option (List Char × List Char)
  | [] => none
  | c :: rest =>
    if c = q then some ([], rest)
    else
      match takeUntilChar q rest with
      | some p => some (c :: p.1, p.2)
      | none => none

/-- POSIX field splitting for a command tail made of blanks, single- and
double-quoted spans and plain characters (no expansions and no backslash
escapes occur in the commands at issue): the argument words the remote
shell would pass on.  `none` for an unterminated quote.  Structural fuel;
`fuel = length` at the call site. -/
def shellFieldsGo : Nat → List Char → Option (List Char) → List (List Char) →
    Option (List (List Char))
  | _, [], cur, acc =>
    some (acc ++ match cur with | some w => [w] | none => [])
  | 0, _ :: _, _, _ => none
  | fuel + 1, c :: rest, cur, acc =>
    if c = ' ' then
      match cur with
      | some w => shellFieldsGo fuel rest none (acc ++ [w])
      | none => shellFieldsGo fuel rest none acc
    else if c = squoteChar then
      match takeUntilChar squoteChar rest with
      | some p => shellFieldsGo fuel p.2 (some (cur.getD [] ++ p.1)) acc
      | none => none
    else if c = dquoteChar then
      match takeUntilChar dquoteChar rest with
      | some p => shellFieldsGo fuel p.2 (some (cur.getD [] ++ p.1)) acc
      | none => none
    else shellFieldsGo fuel rest (some (cur.getD [] ++ [c])) acc

def shellFields (s : String) : Option (List String) :=
  (shellFieldsGo s.data.length s.data none []).map fun ws => ws.map String.mk

/-- C1 (code bug): with extra arguments `"arg1 arg2"` the orchestrator wraps
the whole string in one pair of single quotes, so the remote shell receives
ONE argument `arg1 arg2` instead of one argument per whitespace-separated
token; the per-token quoting the repository's own
test_escape_shell_args.py specifies (and states to be api/app.py's
function) would produce `'arg1' 'arg2'`, two words. -/
theorem install_command_one_word_bug :
    build_install_command (script_url "demo") "arg1 arg2" =
      "curl -fsSL -o- https://raw.githubusercontent.com/andchir/install_scripts/refs/heads/main/scripts/demo.sh | bash -s -- 'arg1 arg2'" ∧
    shellFields "'arg1 arg2'" = some ["arg1 arg2"] ∧
    escape_shell_args "arg1 arg2" = "'arg1' 'arg2'" ∧
    shellFields "'arg1' 'arg2'" = some ["arg1", "arg2"] := by
  refine ⟨by decide, by decide, by decide, by decide⟩
